import Mathlib

/-!
Verification development for the Sentinel Agentic Honeypot backend
(`backend/server.py`).  Python strings are embedded as `List Char`,
Python lists as Lean lists, and the mutating methods of the server as
pure state-passing functions.  Each definition is a direct translation
of the corresponding Python code; the place in the source is recorded
in its doc comment.
-/

set_option maxHeartbeats 1000000

/-- Characters stripped by Python's default `str.strip()`. -/
def isPySpace (c : Char) : Bool :=
  c == ' ' || c == '\t' || c == '\n' || c == '\r' ||
  c == Char.ofNat 11 || c == Char.ofNat 12

/-- Characters stripped by `.rstrip('.,?!')` (server.py line 137). -/
def isPunctC (c : Char) : Bool :=
  c == '.' || c == ',' || c == '?' || c == '!'

/-- Characters stripped by `.rstrip('.')` (server.py line 167). -/
def isDotC (c : Char) : Bool :=
  c == '.'

/-- ASCII lower-casing of one character, the embedding of Python
`str.lower()` applied characterwise. -/
def pyLower (c : Char) : Char :=
  match c with
  | 'A' => 'a' | 'B' => 'b' | 'C' => 'c' | 'D' => 'd' | 'E' => 'e'
  | 'F' => 'f' | 'G' => 'g' | 'H' => 'h' | 'I' => 'i' | 'J' => 'j'
  | 'K' => 'k' | 'L' => 'l' | 'M' => 'm' | 'N' => 'n' | 'O' => 'o'
  | 'P' => 'p' | 'Q' => 'q' | 'R' => 'r' | 'S' => 's' | 'T' => 't'
  | 'U' => 'u' | 'V' => 'v' | 'W' => 'w' | 'X' => 'x' | 'Y' => 'y'
  | 'Z' => 'z'
  | _ => c

/-- Embedding of Python `str.lower()` on a whole string. -/
def pyLowerStr (l : List Char) : List Char :=
  l.map pyLower

/-- Strip matching characters from the right end of a string. -/
def rstrip (p : Char → Bool) (l : List Char) : List Char :=
  (l.reverse.dropWhile p).reverse

/-- Embedding of Python `str.strip()` (whitespace on both ends). -/
def pyStrip (l : List Char) : List Char :=
  rstrip isPySpace (l.dropWhile isPySpace)

/-- Embedding of `str(item).strip().rstrip('.,?!')` (server.py line 137). -/
def trimItem (l : List Char) : List Char :=
  rstrip isPunctC (pyStrip l)

/-- Embedding of `.rstrip('.')` used on stored entries (server.py line 167). -/
def rstripDot (l : List Char) : List Char :=
  rstrip isDotC l

/-- Embedding of `re.sub(r'\D', '', s)`: keep only digits. -/
def digitsOf (l : List Char) : List Char :=
  l.filter Char.isDigit

/-- Helper for the substring test: does the needle occur at the head of
the haystack? -/
def leadsWith : List Char → List Char → Bool
  | [], _ => true
  | _ :: _, [] => false
  | a :: as, b :: bs => a == b && leadsWith as bs

/-- Embedding of the Python substring operator `needle in hay`. -/
def substrIn (needle : List Char) : List Char → Bool
  | [] => needle.isEmpty
  | b :: bs => leadsWith needle (b :: bs) || substrIn needle bs

/-- Phone fingerprint (server.py lines 128-130): keep only digits and
take the last ten when at least ten remain. -/
def get_phone_fingerprint (p : List Char) : List Char :=
  let digits := digitsOf p
  if 10 ≤ digits.length then digits.drop (digits.length - 10) else digits

/-- The five-category intelligence bundle
(`SessionState.extractedIntelligence`, server.py lines 115-121; the same
shape is used for the partial bundles passed to `update_intelligence`,
where an absent key behaves exactly like an empty list). -/
structure Intelligence where
  bankAccounts : List (List Char)
  upiIds : List (List Char)
  phishingLinks : List (List Char)
  phoneNumbers : List (List Char)
  suspiciousKeywords : List (List Char)
deriving DecidableEq, Repr

/-- The empty bundle a fresh session starts with (server.py lines 115-121). -/
def emptyIntel : Intelligence :=
  ⟨[], [], [], [], []⟩

/-- A bundle carrying only bank-account candidates. -/
def bankOnly (l : List (List Char)) : Intelligence :=
  { emptyIntel with bankAccounts := l }

/-- A bundle carrying only phone-number candidates. -/
def phoneOnly (l : List (List Char)) : Intelligence :=
  { emptyIntel with phoneNumbers := l }

/-- Total intelligence count, `sum(len(v) for v in ... if isinstance(v, list))`
(server.py lines 327 and 480). -/
def intelligence_count (i : Intelligence) : Nat :=
  i.bankAccounts.length + i.upiIds.length + i.phishingLinks.length +
    i.phoneNumbers.length + i.suspiciousKeywords.length

/-- One step of the generic-category branch of
`SessionState.update_intelligence` (server.py lines 136-137 and 167-169):
skip falsy items, trim, then append unless a stored entry already matches
case-insensitively after `.rstrip('.')`. -/
def mergeGenericItem (existing : List (List Char)) (item : List Char) :
    List (List Char) :=
  if item = [] then existing
  else
    let clean := trimItem item
    if existing.any (fun x => rstripDot (pyLowerStr x) == pyLowerStr clean) then
      existing
    else existing ++ [clean]

/-- One step of the `phoneNumbers` branch of
`SessionState.update_intelligence` (server.py lines 139-144): append the
trimmed item unless its fingerprint is empty or already present. -/
def mergePhoneItem (existing : List (List Char)) (item : List Char) :
    List (List Char) :=
  if item = [] then existing
  else
    let clean := trimItem item
    let fp := get_phone_fingerprint clean
    if !fp.isEmpty && !(existing.any fun ex => get_phone_fingerprint ex == fp) then
      existing ++ [clean]
    else existing

/-- The scan-replace-or-append loop of the `bankAccounts` branch
(server.py lines 152-164): find the first stored entry containing the
candidate's digit string; if none, append the candidate; if found,
replace it only when the candidate string is strictly longer. -/
def bankInsert (item_str item_digits : List Char) :
    List (List Char) → List (List Char)
  | [] => [item_str]
  | ex :: rest =>
    if substrIn item_digits ex then
      (if ex.length < item_str.length then item_str :: rest else ex :: rest)
    else ex :: bankInsert item_str item_digits rest

/-- One step of the `bankAccounts` branch of
`SessionState.update_intelligence` (server.py lines 146-165). -/
def mergeBankItem (existing : List (List Char)) (item : List Char) :
    List (List Char) :=
  if item = [] then existing
  else
    let item_str := trimItem item
    let item_digits := digitsOf item_str
    if item_digits.length < 10 then existing
    else bankInsert item_str item_digits existing

/-- `SessionState.update_intelligence` (server.py lines 127-169): fold
every candidate of the incoming bundle into the stored bundle, category
by category.  The Python loop runs over the five fixed keys; a key
absent from the incoming dict is modelled by an empty candidate list,
which makes the corresponding fold a no-op exactly as `if key in
new_intel` does. -/
def update_intelligence (s : Intelligence) (b : Intelligence) : Intelligence :=
  { bankAccounts := b.bankAccounts.foldl mergeBankItem s.bankAccounts
    upiIds := b.upiIds.foldl mergeGenericItem s.upiIds
    phishingLinks := b.phishingLinks.foldl mergeGenericItem s.phishingLinks
    phoneNumbers := b.phoneNumbers.foldl mergePhoneItem s.phoneNumbers
    suspiciousKeywords :=
      b.suspiciousKeywords.foldl mergeGenericItem s.suspiciousKeywords }

/-- A conversation message (`MessageObj`, server.py lines 171-174). -/
structure MessageObj where
  sender : List Char
  text : List Char
  timestamp : Int
deriving DecidableEq, Repr

/-- Per-session state (`SessionState.__init__`, server.py lines 110-125). -/
structure SessionState where
  sessionId : List Char
  scamDetected : Bool
  totalMessagesExchanged : Nat
  extractedIntelligence : Intelligence
  agentNotes : List Char
  isFinalResultSent : Bool
  lastSentIntelligenceCount : Nat
  history : List MessageObj
deriving DecidableEq, Repr

/-- A fresh session (server.py lines 110-125). -/
def SessionState.init (sid : List Char) : SessionState :=
  ⟨sid, false, 0, emptyIntel, [], false, 0, []⟩

/-- History reconciliation (server.py lines 374-375): adopt the
client-supplied history only when the server-side history is empty and
the client history non-empty; otherwise keep the server history. -/
def reconcileHistory (server client : List MessageObj) : List MessageObj :=
  if server.isEmpty && !client.isEmpty then client else server

/-- Reconciliation followed by the unconditional append of the new
inbound message (server.py lines 374-378). -/
def turnHistory (server client : List MessageObj) (msg : MessageObj) :
    List MessageObj :=
  reconcileHistory server client ++ [msg]

/-- The rendering `f"{m.sender} {m.text}"` of one message (server.py line 405). -/
def msgText (m : MessageObj) : List Char :=
  m.sender ++ ' ' :: m.text

/-- `" ".join(f"{m.sender} {m.text}" for m in history)` (server.py line 405). -/
def allText (h : List MessageObj) : List Char :=
  List.intercalate [' '] (h.map msgText)

/-- `combined_input = f"{all_text} {sender} {text}"` (server.py line 406),
where `history` is the post-append server history. -/
def combinedInput (h : List MessageObj) (m : MessageObj) : List Char :=
  allText h ++ ' ' :: msgText m

/-- The five keywords that force `scamDetected` (server.py line 470). -/
def scamKeywords : List (List Char) :=
  ["bank".data, "sbi".data, "hdfc".data, "upi".data, "kyc".data]

/-- The fraud keywords of the offline persona (server.py line 523). -/
def fraudKeywords : List (List Char) :=
  ["bank".data, "upi".data, "hdfc".data, "block".data, "verify".data,
   "link".data, "win".data, "otp".data, "support".data, "kyc".data]

/-- `len(...) > 0 or len(...) > 0` for phones and accounts (server.py line 483). -/
def has_critical_intel (i : Intelligence) : Bool :=
  decide (0 < i.phoneNumbers.length) || decide (0 < i.bankAccounts.length)

/-- The callback trigger guard (server.py lines 479-485): report when a
scam is detected and the turn is finished, critical intel exists, the
intelligence count reached 3, or the session's message count reached 4. -/
def reportTriggered (scam : Bool) (intel : Intelligence) (total : Nat)
    (is_finished : Bool) : Bool :=
  scam && (is_finished || has_critical_intel intel ||
    decide (3 ≤ intelligence_count intel) || decide (4 ≤ total))

/-- `send_final_result` (server.py lines 325-359) as a state transition.
The Boolean argument tells whether the external POST would return
HTTP 200; the Boolean result tells whether a delivery was performed at
all (the watermark guard at lines 327-329 may suppress it).  The flag
and watermark advance only on HTTP 200 (lines 352-354); any failure
leaves the session untouched (lines 356-359). -/
def send_final_result (s : SessionState) (deliveryOk : Bool) :
    Bool × SessionState :=
  let current := intelligence_count s.extractedIntelligence
  if s.isFinalResultSent && decide (current ≤ s.lastSentIntelligenceCount) then
    (false, s)
  else if deliveryOk then
    (true, { s with isFinalResultSent := true,
                    lastSentIntelligenceCount := current })
  else (true, s)

/-- The apostrophe character, written by code point to keep the canned
persona lines byte-for-byte faithful to the source. -/
def apoc : Char := Char.ofNat 39

/-- The five rotating canned replies of the offline persona
(server.py lines 527-533), in source order. -/
def failoverResponses : List (List Char) :=
  [ "Oh dear, my pension account? My grandson mentioned something about this... what do I need to do exactly?".data,
    "I".data ++ apoc :: "m so sorry, I".data ++ apoc :: "m just looking for my glasses. Did you say my account is blocked? How did this happen?".data,
    "I".data ++ apoc :: "m a bit confused, Raj. Is this about the SBI branch near the park? Can you tell me your name again?".data,
    "I have my diary here... let me see. My grandson says I shouldn".data ++ apoc :: "t give details over the phone, are you sure this is official?".data,
    "Can you wait a moment? Something is boiling on the stove. I hope this isn".data ++ apoc :: "t a scam, I".data ++ apoc :: "m just a teacher.".data ]

/-- The fixed small-talk override reply (server.py line 537). -/
def howAreYouReply : List Char :=
  "I".data ++ apoc :: "m doing well, just about to have some tea. thank you for asking. Who is this again?".data

/-- The fixed non-fraud override reply (server.py line 539). -/
def wrongNumberReply : List Char :=
  "Bless you, I think you have the wrong number... I don".data ++ apoc :: "t know who you are.".data

/-- The small-talk keyword (server.py line 536). -/
def howAreYou : List Char := "how are you".data

/-- Default agent notes when the provider omits them (server.py line 475). -/
def defaultNotes : List Char :=
  "[STRATEGY: Intelligence Gathering], [INTENT: Scam Engagement], [ACTION: Success]".data

/-- Default reply when the provider omits one (server.py line 489). -/
def helloDefault : List Char := "Hello?".data

/-- The sender tag of the decoy's own messages (server.py line 489). -/
def userStr : List Char := "user".data

/-- The status value of every response payload (server.py lines 501 and 555). -/
def successStr : List Char := "success".data

/-- The decoded reasoning-provider result consumed by the handler.
Fields read through `result.get(key, default)` are `Option`s; an absent
`extractedIntelligence` behaves like the empty bundle. -/
structure ReasoningOutcome where
  scamDetected : Option Bool := none
  reply : Option (List Char) := none
  isFinished : Option Bool := none
  extractedIntelligence : Intelligence := emptyIntel
  agentNotes : Option (List Char) := none
deriving DecidableEq, Repr

/-- The turn of `handle_message` on which the provider call and the JSON
decode succeeded (server.py lines 372-378, 404-406, 440 and 451-493).
The heuristic bundle extracted by the regex layer (lines 409-439) enters
as the argument `heur`; `t` is the reply timestamp.  Returns the new
session state, whether the report callback was triggered (line 486) and
the reply text. -/
def successTurn (s : SessionState) (ch : List MessageObj) (msg : MessageObj)
    (heur : Intelligence) (r : ReasoningOutcome) (t : Int) :
    SessionState × Bool × List Char :=
  let h1 := turnHistory s.history ch msg
  let combined := combinedInput h1 msg
  let intel1 := update_intelligence s.extractedIntelligence heur
  let scam1 := r.scamDetected.getD s.scamDetected
  let scam2 := if scamKeywords.any (fun k => substrIn k combined) then true
               else scam1
  let intel2 := update_intelligence intel1 r.extractedIntelligence
  let notes := r.agentNotes.getD defaultNotes
  let is_finished := r.isFinished.getD false
  let trig := reportTriggered scam2 intel2 s.totalMessagesExchanged is_finished
  let reply := r.reply.getD helloDefault
  let agentMsg : MessageObj := ⟨userStr, reply, t⟩
  let h2 := h1 ++ [agentMsg]
  ({ s with scamDetected := scam2, extractedIntelligence := intel2,
            agentNotes := notes, history := h2,
            totalMessagesExchanged := h2.length },
   trig, reply)

/-- The `combined_input` a fallback turn computes (server.py lines 405-406). -/
def fallbackCombined (s : SessionState) (ch : List MessageObj)
    (msg : MessageObj) : List Char :=
  combinedInput (turnHistory s.history ch msg) msg

/-- `is_fraud` of the offline persona (server.py line 523). -/
def fallbackIsFraud (s : SessionState) (ch : List MessageObj)
    (msg : MessageObj) : Bool :=
  fraudKeywords.any fun k => substrIn k (fallbackCombined s ch msg)

/-- The small-talk test of the offline persona (server.py line 536). -/
def fallbackSmallTalk (s : SessionState) (ch : List MessageObj)
    (msg : MessageObj) : Bool :=
  substrIn howAreYou (pyLowerStr (fallbackCombined s ch msg))

/-- The turn of `handle_message` on which the provider call or the JSON
decode failed (server.py lines 372-378, 404-440 and 520-570): the
heuristic bundle is still merged, `scamDetected` can only be raised,
and a canned persona reply is chosen by the rotation index
`totalMessagesExchanged % 5` unless one of the two overrides fires.
Returns the new state and the reply. -/
def fallbackTurn (s : SessionState) (ch : List MessageObj) (msg : MessageObj)
    (heur : Intelligence) (t : Int) : SessionState × List Char :=
  let h1 := turnHistory s.history ch msg
  let intel1 := update_intelligence s.extractedIntelligence heur
  let is_fraud := fallbackIsFraud s ch msg
  let scam2 := is_fraud || s.scamDetected
  let base := failoverResponses.getD (s.totalMessagesExchanged % 5) []
  let reply := if fallbackSmallTalk s ch msg then howAreYouReply
               else if is_fraud = false then wrongNumberReply
               else base
  let agentMsg : MessageObj := ⟨userStr, reply, t⟩
  let h2 := h1 ++ [agentMsg]
  ({ s with scamDetected := scam2, extractedIntelligence := intel1,
            history := h2, totalMessagesExchanged := h2.length },
   reply)

/-- The control-character filter `re.sub(r'[\x00-\x1f\x7f-\x9f]', '', s)`
(server.py line 463). -/
def stripCtl (l : List Char) : List Char :=
  l.filter fun c => !(c.toNat ≤ 31 || (127 ≤ c.toNat && c.toNat ≤ 159))

/-- The robust JSON extraction of `handle_message` (server.py lines
455-466): slice from the first opening brace to the last closing brace
and strip control characters; when either brace is missing the handler
raises and falls through to the persona fallback. -/
def extractJson (content : List Char) : Option (List Char) :=
  match content.findIdx? (fun c => c == Char.ofNat 123),
        content.reverse.findIdx? (fun c => c == Char.ofNat 125) with
  | some i, some k =>
      some (stripCtl ((content.take (content.length - 1 - k + 1)).drop i))
  | _, _ => none

/-- The slice of the per-turn response payload the error-handling claims
are about (server.py lines 500-511 and 554-563). -/
structure TurnResponse where
  status : List Char
  reply : List Char
deriving DecidableEq, Repr

/-- The try/except skeleton of `handle_message` (server.py lines
451-570): a provider invocation error, a missing JSON object in the raw
content, or an undecodable JSON object all land in the except branch and
produce the fallback turn; only a fully decoded outcome produces the
success turn.  Either way the returned payload carries
`status = "success"`. -/
def runTurn (s : SessionState) (ch : List MessageObj) (msg : MessageObj)
    (heur : Intelligence) (invokeResult : Except (List Char) (List Char))
    (parse : List Char → Option ReasoningOutcome) (t : Int) :
    SessionState × TurnResponse :=
  match invokeResult with
  | Except.error _ =>
      let p := fallbackTurn s ch msg heur t
      (p.1, ⟨successStr, p.2⟩)
  | Except.ok content =>
    match extractJson content with
    | none =>
        let p := fallbackTurn s ch msg heur t
        (p.1, ⟨successStr, p.2⟩)
    | some js =>
      match parse js with
      | none =>
          let p := fallbackTurn s ch msg heur t
          (p.1, ⟨successStr, p.2⟩)
      | some r =>
          let p := successTurn s ch msg heur r t
          (p.1, ⟨successStr, p.2.2⟩)

/-- A digit string shared by a bank-account candidate and a phone number. -/
def phoneDigits : List Char := "9876543210".data

/-- An unlabeled sixteen-digit account candidate. -/
def acct16 : List Char := "1234567890123456".data

/-- The same account candidate with a bank-name label. -/
def acctLabeled : List Char := "HDFC: 1234567890123456".data

/-- An account candidate whose digits are interrupted by separators. -/
def sepAcct : List Char := "1234-5678-90".data

/-- Concrete messages for the history counterexamples. -/
def mA : MessageObj := ⟨"scammer".data, "a".data, 0⟩

/-- Second concrete message. -/
def mB : MessageObj := ⟨"scammer".data, "b".data, 1⟩

/-- Third concrete message. -/
def mC : MessageObj := ⟨"scammer".data, "c".data, 2⟩

/-- Fourth concrete message. -/
def mD : MessageObj := ⟨"scammer".data, "d".data, 3⟩

/-- Fifth concrete message. -/
def mE : MessageObj := ⟨"scammer".data, "e".data, 4⟩

/-- First message of the small-talk fallback scenario. -/
def smallTalkMsg1 : MessageObj := ⟨"scammer".data, "hello how are you".data, 0⟩

/-- Second message of the small-talk fallback scenario. -/
def smallTalkMsg2 : MessageObj := ⟨"scammer".data, "are you there".data, 1⟩

/-- First turn of the small-talk fallback scenario. -/
def smallTalkTurn1 : SessionState × List Char :=
  fallbackTurn (SessionState.init "s1".data) [] smallTalkMsg1 emptyIntel 0

/-- Second, consecutive fallback turn of the small-talk scenario. -/
def smallTalkTurn2 : SessionState × List Char :=
  fallbackTurn smallTalkTurn1.1 [] smallTalkMsg2 emptyIntel 1

/-- Pre-existing message of the rotation witness scenario. -/
def rotMsg0 : MessageObj := ⟨"scammer".data, "bank alert".data, 0⟩

/-- First inbound message of the rotation witness scenario. -/
def rotMsg1 : MessageObj := ⟨"scammer".data, "your bank otp now".data, 1⟩

/-- Second inbound message of the rotation witness scenario. -/
def rotMsg2 : MessageObj := ⟨"scammer".data, "send bank details".data, 2⟩

/-- Session of the rotation witness scenario: one stored message, count 1. -/
def rotSession : SessionState :=
  { SessionState.init "s2".data with history := [rotMsg0],
                                     totalMessagesExchanged := 1 }

/-- An already-reported session whose intelligence count (5) exceeds its
watermark (4). -/
def reportedSession : SessionState :=
  { SessionState.init "w".data with
      isFinalResultSent := true,
      lastSentIntelligenceCount := 4,
      extractedIntelligence :=
        { emptyIntel with suspiciousKeywords :=
            ["a".data, "b".data, "c".data, "d".data, "e".data] } }

/-- A session whose scam flag is set, for the revert scenario. -/
def sRevert : SessionState :=
  { SessionState.init "s3".data with scamDetected := true }

/-- A benign message containing none of the scam keywords. -/
def benignMsg : MessageObj := ⟨"scammer".data, "hello there friend".data, 0⟩

/-- A provider outcome whose verdict is `false`. -/
def verdictFalse : ReasoningOutcome := { scamDetected := some false }

/-- A bundle with one digit-only candidate in every category. -/
def c5bundle : Intelligence :=
  ⟨["1234567890".data], ["scammer@upi".data], ["http://fake".data],
   ["9876543210".data], ["otp".data]⟩

/-- First turn of the rotation witness scenario. -/
def rotTurn1 : SessionState × List Char :=
  fallbackTurn rotSession [] rotMsg1 emptyIntel 1

/-- A candidate consisting solely of digits (and nonempty).  Under this
restriction a bank-account candidate coincides with its own digit
string, so the substring-based duplicate check of the merge finds it
again after it has been stored. -/
def digitOnly (l : List Char) : Prop :=
  l ≠ [] ∧ ∀ c ∈ l, c.isDigit = true

instance (l : List Char) : Decidable (digitOnly l) := by
  unfold digitOnly; infer_instance

/-- Lower-casing maps only the dot to the dot. -/
theorem pyLower_eq_dot {c : Char} (h : pyLower c = '.') : c = '.' := by
  unfold pyLower at h
  split at h <;> first | exact h | exact absurd h (by decide)

/-- Whitespace characters are not digits. -/
theorem pySpace_not_digit {c : Char} (h : isPySpace c = true) :
    c.isDigit = false := by
  unfold isPySpace at h
  simp only [Bool.or_eq_true, beq_iff_eq] at h
  rcases h with ((((h | h) | h) | h) | h) | h <;> subst h <;> decide

/-- Trailing-punctuation characters are not digits. -/
theorem punct_not_digit {c : Char} (h : isPunctC c = true) :
    c.isDigit = false := by
  unfold isPunctC at h
  simp only [Bool.or_eq_true, beq_iff_eq] at h
  rcases h with ((h | h) | h) | h <;> subst h <;> decide

/-- Dropping a strictly-stronger predicate after a weaker one is a no-op. -/
theorem dropWhile_dropWhile_of_imp {p q : Char → Bool}
    (himp : ∀ c, q c = true → p c = true) :
    ∀ l : List Char, (l.dropWhile p).dropWhile q = l.dropWhile p := by
  intro l
  induction l with
  | nil => rfl
  | cons a t ih =>
    by_cases hp : p a = true
    · simp only [List.dropWhile_cons, hp, if_true]
      exact ih
    · have hpa : p a = false := by
        cases hv : p a
        · rfl
        · exact absurd hv hp
      have hqa : q a = false := by
        cases hv : q a
        · rfl
        · exact absurd (himp a hv) hp
      simp only [List.dropWhile_cons, hpa, hqa, if_false, Bool.false_eq_true]

/-- Dropping on a list whose members all fail the predicate is a no-op. -/
theorem dropWhile_eq_self_of_all {p : Char → Bool} {l : List Char}
    (h : ∀ c ∈ l, p c = false) : l.dropWhile p = l := by
  cases l with
  | nil => rfl
  | cons a t =>
    simp only [List.dropWhile_cons, h a (List.mem_cons_self a t), if_false,
      Bool.false_eq_true]

/-- Right-stripping with a stronger predicate after a weaker one is a no-op. -/
theorem rstrip_rstrip_of_imp {p q : Char → Bool}
    (himp : ∀ c, q c = true → p c = true) (l : List Char) :
    rstrip q (rstrip p l) = rstrip p l := by
  unfold rstrip
  rw [List.reverse_reverse, dropWhile_dropWhile_of_imp himp]

/-- Right-stripping a list whose members all fail the predicate is a no-op. -/
theorem rstrip_eq_self_of_all {p : Char → Bool} {l : List Char}
    (h : ∀ c ∈ l, p c = false) : rstrip p l = l := by
  unfold rstrip
  rw [dropWhile_eq_self_of_all (fun c hc => h c (List.mem_reverse.mp hc)),
    List.reverse_reverse]

/-- Central absorption fact for generic categories: the stored form of a
trimmed candidate matches itself under the `lower` plus `rstrip('.')`
comparison performed by `update_intelligence`. -/
theorem rstripDot_lower_trim (x : List Char) :
    rstripDot (pyLowerStr (trimItem x)) = pyLowerStr (trimItem x) := by
  have himp : ∀ c, (isDotC ∘ pyLower) c = true → isPunctC c = true := by
    intro c h
    simp only [Function.comp, isDotC, beq_iff_eq] at h
    have := pyLower_eq_dot h
    subst this
    decide
  unfold trimItem rstripDot
  generalize pyStrip x = u
  unfold rstrip pyLowerStr
  rw [List.map_reverse, List.reverse_reverse, List.dropWhile_map,
    dropWhile_dropWhile_of_imp himp]

/-- A string occurs at the head of itself. -/
theorem leadsWith_self (l : List Char) : leadsWith l l = true := by
  induction l with
  | nil => rfl
  | cons a t ih => simp [leadsWith, ih]

/-- A head occurrence needs at most the haystack's length. -/
theorem leadsWith_length_le :
    ∀ {n h : List Char}, leadsWith n h = true → n.length ≤ h.length := by
  intro n
  induction n with
  | nil => intro h _; simp
  | cons a t ih =>
    intro h hl
    cases h with
    | nil => simp [leadsWith] at hl
    | cons b bs =>
      simp only [leadsWith, Bool.and_eq_true] at hl
      have := ih hl.2
      simp only [List.length_cons]
      omega

/-- Every string is a substring of itself. -/
theorem substrIn_self (l : List Char) : substrIn l l = true := by
  cases l with
  | nil => rfl
  | cons a t => simp [substrIn, leadsWith_self]

/-- A substring is at most as long as its container. -/
theorem substrIn_length_le :
    ∀ {n h : List Char}, substrIn n h = true → n.length ≤ h.length := by
  intro n h
  induction h with
  | nil =>
    intro hs
    simp only [substrIn, List.isEmpty_iff] at hs
    simp [hs]
  | cons b bs ih =>
    intro hs
    simp only [substrIn, Bool.or_eq_true] at hs
    rcases hs with hs | hs
    · exact leadsWith_length_le hs
    · have := ih hs
      simp only [List.length_cons]
      omega

/-- Appending an element never returns the same list. -/
theorem append_singleton_ne {α : Type} (e : List α) (x : α) : e ++ [x] ≠ e := by
  intro h
  have := congrArg List.length h
  simp at this

/-- A per-item merge step absorbed by a state stays absorbed after the
state processes further items (hypothesis `hmono`), so it is still
absorbed after a whole fold. -/
theorem absorb_foldl_keep
    (step : List (List Char) → List Char → List (List Char))
    (Itm : List Char → Prop)
    (hmono : ∀ e i j, Itm i → Itm j → step e i = e → step (step e j) i = step e j) :
    ∀ (l : List (List Char)) (e : List (List Char)) (i : List Char),
      (∀ j ∈ l, Itm j) → Itm i → step e i = e →
      step (l.foldl step e) i = l.foldl step e := by
  intro l
  induction l with
  | nil => intro e i _ _ h; simpa using h
  | cons a t ih =>
    intro e i hl hi h
    simp only [List.foldl_cons]
    exact ih (step e a) i (fun j hj => hl j (List.mem_cons_of_mem _ hj)) hi
      (hmono e i a hi (hl a (List.mem_cons_self a t)) h)

/-- After folding a list of items into a state, every one of those items
is absorbed by the resulting state. -/
theorem absorb_foldl_all
    (step : List (List Char) → List Char → List (List Char))
    (Itm : List Char → Prop)
    (hpost : ∀ e i, Itm i → step (step e i) i = step e i)
    (hmono : ∀ e i j, Itm i → Itm j → step e i = e → step (step e j) i = step e j) :
    ∀ (l : List (List Char)) (e : List (List Char)) (i : List Char),
      (∀ j ∈ l, Itm j) → i ∈ l →
      step (l.foldl step e) i = l.foldl step e := by
  intro l
  induction l with
  | nil => intro e i _ hi; simp at hi
  | cons a t ih =>
    intro e i hl hi
    simp only [List.foldl_cons]
    rcases List.mem_cons.mp hi with rfl | hit
    · exact absorb_foldl_keep step Itm hmono t (step e i) i
        (fun j hj => hl j (List.mem_cons_of_mem _ hj))
        (hl i (List.mem_cons_self i t))
        (hpost e i (hl i (List.mem_cons_self i t)))
    · exact ih (step e a) i (fun j hj => hl j (List.mem_cons_of_mem _ hj)) hit

/-- Folding a list of already-absorbed items is a no-op. -/
theorem absorb_foldl_noop
    (step : List (List Char) → List Char → List (List Char)) :
    ∀ (l : List (List Char)) (e : List (List Char)),
      (∀ j ∈ l, step e j = e) → l.foldl step e = e := by
  intro l
  induction l with
  | nil => intro e _; rfl
  | cons a t ih =>
    intro e h
    simp only [List.foldl_cons, h a (List.mem_cons_self a t)]
    exact ih e fun j hj => h j (List.mem_cons_of_mem _ hj)

/-- Folding the same item list twice gives the same state as folding it
once, provided the step absorbs processed items (`hpost`) and keeps them
absorbed (`hmono`). -/
theorem absorb_foldl_idem
    (step : List (List Char) → List Char → List (List Char))
    (Itm : List Char → Prop)
    (hpost : ∀ e i, Itm i → step (step e i) i = step e i)
    (hmono : ∀ e i j, Itm i → Itm j → step e i = e → step (step e j) i = step e j)
    (l : List (List Char)) (e : List (List Char)) (hl : ∀ j ∈ l, Itm j) :
    l.foldl step (l.foldl step e) = l.foldl step e :=
  absorb_foldl_noop step l (l.foldl step e) fun j hj =>
    absorb_foldl_all step Itm hpost hmono l e j hl hj

/-- Digits are not Python whitespace. -/
theorem digit_not_pySpace {c : Char} (h : c.isDigit = true) :
    isPySpace c = false := by
  cases hv : isPySpace c
  · rfl
  · have hd := pySpace_not_digit hv
    rw [h] at hd
    simp at hd

/-- Digits are not trailing punctuation. -/
theorem digit_not_punct {c : Char} (h : c.isDigit = true) :
    isPunctC c = false := by
  cases hv : isPunctC c
  · rfl
  · have hd := punct_not_digit hv
    rw [h] at hd
    simp at hd

/-- Trimming leaves a pure digit string unchanged. -/
theorem digitOnly_trim {l : List Char} (h : digitOnly l) : trimItem l = l := by
  obtain ⟨_, hall⟩ := h
  unfold trimItem pyStrip
  rw [dropWhile_eq_self_of_all fun c hc => digit_not_pySpace (hall c hc),
    rstrip_eq_self_of_all fun c hc => digit_not_pySpace (hall c hc),
    rstrip_eq_self_of_all fun c hc => digit_not_punct (hall c hc)]

/-- Filtering keeps a list whose members all satisfy the predicate. -/
theorem filter_eq_self_of_all {p : Char → Bool} :
    ∀ {l : List Char}, (∀ c ∈ l, p c = true) → l.filter p = l := by
  intro l
  induction l with
  | nil => intro _; rfl
  | cons a t ih =>
    intro h
    simp [List.filter_cons, h a (List.mem_cons_self a t),
      ih fun c hc => h c (List.mem_cons_of_mem _ hc)]

/-- A pure digit string is its own digit string. -/
theorem digitOnly_digits {l : List Char} (h : digitOnly l) : digitsOf l = l :=
  filter_eq_self_of_all h.2

/-- For a digit-only candidate the stored string contains the candidate's
digits, so the replace branch of `bankInsert` can never fire (a substring
is never strictly longer than its container) and the loop reduces to a
membership test. -/
theorem bankInsert_no_replace {i : List Char} :
    ∀ e : List (List Char), bankInsert i i e =
      if e.any (fun ex => substrIn i ex) then e else e ++ [i] := by
  intro e
  induction e with
  | nil => simp [bankInsert]
  | cons a rest ih =>
    by_cases hs : substrIn i a = true
    · have hle := substrIn_length_le hs
      simp [bankInsert, hs, Nat.not_lt.mpr hle]
    · have hs' : substrIn i a = false := by
        cases hv : substrIn i a
        · rfl
        · exact absurd hv hs
      by_cases har : rest.any (fun ex => substrIn i ex) = true <;>
        simp [bankInsert, hs', ih, har, List.any_cons]

/-- `mergeBankItem` on a digit-only candidate: skip short candidates,
otherwise append unless some stored entry already contains the digits. -/
theorem mergeBank_digitOnly {i : List Char} (hd : digitOnly i)
    (e : List (List Char)) :
    mergeBankItem e i = if i.length < 10 then e
      else if e.any (fun ex => substrIn i ex) then e else e ++ [i] := by
  unfold mergeBankItem
  simp only [if_neg hd.1, digitOnly_trim hd, digitOnly_digits hd]
  by_cases hl : i.length < 10
  · simp [hl]
  · simp [hl, bankInsert_no_replace]

/-- A bank candidate already processed once is absorbed on reprocessing. -/
theorem mergeBankItem_post (e : List (List Char)) (i : List Char)
    (hit : i = [] ∨ digitOnly i) :
    mergeBankItem (mergeBankItem e i) i = mergeBankItem e i := by
  rcases hit with rfl | hd
  · simp [mergeBankItem]
  · by_cases hl : i.length < 10
    · simp [mergeBank_digitOnly hd, hl]
    · by_cases hany : e.any (fun ex => substrIn i ex) = true
      · simp [mergeBank_digitOnly hd, hl, hany]
      · have hany' : e.any (fun ex => substrIn i ex) = false := by
          cases hv : e.any (fun ex => substrIn i ex)
          · rfl
          · exact absurd hv hany
        have h1 : mergeBankItem e i = e ++ [i] := by
          simp [mergeBank_digitOnly hd, hl, hany']
        rw [h1, mergeBank_digitOnly hd]
        simp [hl, List.any_append, substrIn_self]

/-- A bank candidate absorbed by a state stays absorbed after the state
processes another candidate. -/
theorem mergeBankItem_mono (e : List (List Char)) (i j : List Char)
    (hi : i = [] ∨ digitOnly i) (hj : j = [] ∨ digitOnly j)
    (h : mergeBankItem e i = e) :
    mergeBankItem (mergeBankItem e j) i = mergeBankItem e j := by
  rcases hi with rfl | hd
  · simp [mergeBankItem]
  · by_cases hl : i.length < 10
    · rw [mergeBank_digitOnly hd]
      simp [hl]
    · have hany : e.any (fun ex => substrIn i ex) = true := by
        by_contra hc
        have hc' : e.any (fun ex => substrIn i ex) = false := by
          cases hv : e.any (fun ex => substrIn i ex)
          · rfl
          · exact absurd hv hc
        rw [mergeBank_digitOnly hd] at h
        simp only [hl, if_false, hc', ite_false] at h
        exact append_singleton_ne e i h
      have hshape : mergeBankItem e j = e ∨ mergeBankItem e j = e ++ [j] := by
        rcases hj with rfl | hdj
        · left; simp [mergeBankItem]
        · rw [mergeBank_digitOnly hdj]
          by_cases hlj : j.length < 10
          · left; simp [hlj]
          · by_cases hanyj : e.any (fun ex => substrIn j ex) = true
            · left; simp [hlj, hanyj]
            · right; simp [hlj, hanyj]
      rcases hshape with hs | hs <;> rw [hs, mergeBank_digitOnly hd] <;>
        simp [hl, List.any_append, hany]

/-- A generic candidate already processed once is absorbed on reprocessing. -/
theorem mergeGenericItem_post (e : List (List Char)) (i : List Char) :
    mergeGenericItem (mergeGenericItem e i) i = mergeGenericItem e i := by
  by_cases hi : i = []
  · simp [mergeGenericItem, hi]
  · by_cases hany :
      (e.any fun x => rstripDot (pyLowerStr x) == pyLowerStr (trimItem i)) = true
    · simp [mergeGenericItem, hi, hany]
    · have hany' :
          (e.any fun x => rstripDot (pyLowerStr x) == pyLowerStr (trimItem i)) = false := by
        cases hv : e.any fun x => rstripDot (pyLowerStr x) == pyLowerStr (trimItem i)
        · rfl
        · exact absurd hv hany
      have h1 : mergeGenericItem e i = e ++ [trimItem i] := by
        simp [mergeGenericItem, hi, hany']
      rw [h1]
      simp [mergeGenericItem, hi, List.any_append, rstripDot_lower_trim]

/-- A generic candidate absorbed by a state stays absorbed after the
state processes another candidate. -/
theorem mergeGenericItem_mono (e : List (List Char)) (i j : List Char)
    (h : mergeGenericItem e i = e) :
    mergeGenericItem (mergeGenericItem e j) i = mergeGenericItem e j := by
  by_cases hi : i = []
  · simp [mergeGenericItem, hi]
  · have hany :
        (e.any fun x => rstripDot (pyLowerStr x) == pyLowerStr (trimItem i)) = true := by
      by_contra hc
      have hc' :
          (e.any fun x => rstripDot (pyLowerStr x) == pyLowerStr (trimItem i)) = false := by
        cases hv : e.any fun x => rstripDot (pyLowerStr x) == pyLowerStr (trimItem i)
        · rfl
        · exact absurd hv hc
      rw [mergeGenericItem] at h
      simp only [hi, if_false, hc', ite_false] at h
      exact append_singleton_ne e (trimItem i) h
    have hshape : mergeGenericItem e j = e ∨
        mergeGenericItem e j = e ++ [trimItem j] := by
      unfold mergeGenericItem
      by_cases hj : j = []
      · left; simp [hj]
      · by_cases hja :
          (e.any fun x => rstripDot (pyLowerStr x) == pyLowerStr (trimItem j)) = true
        · left; simp [hj, hja]
        · have hja' :
              (e.any fun x => rstripDot (pyLowerStr x) == pyLowerStr (trimItem j)) = false := by
            cases hv : e.any fun x => rstripDot (pyLowerStr x) == pyLowerStr (trimItem j)
            · rfl
            · exact absurd hv hja
          right; simp [hj, hja']
    rcases hshape with hs | hs <;> rw [hs] <;>
      simp [mergeGenericItem, hi, List.any_append, hany]

/-- A phone candidate already processed once is absorbed on reprocessing. -/
theorem mergePhoneItem_post (e : List (List Char)) (i : List Char) :
    mergePhoneItem (mergePhoneItem e i) i = mergePhoneItem e i := by
  by_cases hi : i = []
  · simp [mergePhoneItem, hi]
  · by_cases hc : (!(get_phone_fingerprint (trimItem i)).isEmpty &&
        !(e.any fun ex =>
          get_phone_fingerprint ex == get_phone_fingerprint (trimItem i))) = true
    · have h1 : mergePhoneItem e i = e ++ [trimItem i] := by
        rw [mergePhoneItem]
        simp only [hi, if_false, ite_false]
        rw [if_pos hc]
      rw [h1, mergePhoneItem]
      simp only [hi, if_false, ite_false]
      rw [if_neg]
      simp [List.any_append]
    · have hc' : (!(get_phone_fingerprint (trimItem i)).isEmpty &&
          !(e.any fun ex =>
            get_phone_fingerprint ex == get_phone_fingerprint (trimItem i))) = false := by
        cases hv : (!(get_phone_fingerprint (trimItem i)).isEmpty &&
            !(e.any fun ex =>
              get_phone_fingerprint ex == get_phone_fingerprint (trimItem i)))
        · rfl
        · exact absurd hv hc
      have h1 : mergePhoneItem e i = e := by
        rw [mergePhoneItem]
        simp only [hi, if_false, ite_false]
        rw [if_neg]
        simp [hc']
      rw [h1, h1]

/-- A phone candidate absorbed by a state stays absorbed after the state
processes another candidate. -/
theorem mergePhoneItem_mono (e : List (List Char)) (i j : List Char)
    (h : mergePhoneItem e i = e) :
    mergePhoneItem (mergePhoneItem e j) i = mergePhoneItem e j := by
  by_cases hi : i = []
  · simp [mergePhoneItem, hi]
  · have hcf : (get_phone_fingerprint (trimItem i)).isEmpty = true ∨
        (e.any fun ex =>
          get_phone_fingerprint ex == get_phone_fingerprint (trimItem i)) = true := by
      by_cases hfp : (get_phone_fingerprint (trimItem i)).isEmpty = true
      · exact Or.inl hfp
      · by_cases hany : (e.any fun ex =>
            get_phone_fingerprint ex == get_phone_fingerprint (trimItem i)) = true
        · exact Or.inr hany
        · exfalso
          have hfp' : (get_phone_fingerprint (trimItem i)).isEmpty = false := by
            cases hv : (get_phone_fingerprint (trimItem i)).isEmpty
            · rfl
            · exact absurd hv hfp
          have hany' : (e.any fun ex =>
              get_phone_fingerprint ex == get_phone_fingerprint (trimItem i)) = false := by
            cases hv : e.any fun ex =>
                get_phone_fingerprint ex == get_phone_fingerprint (trimItem i)
            · rfl
            · exact absurd hv hany
          rw [mergePhoneItem] at h
          simp only [hi, if_false, ite_false, hfp', hany', Bool.not_false,
            Bool.and_self, if_true] at h
          exact append_singleton_ne e (trimItem i) h
    have hshape : mergePhoneItem e j = e ∨
        mergePhoneItem e j = e ++ [trimItem j] := by
      rw [mergePhoneItem]
      by_cases hj : j = []
      · left; simp [hj]
      · simp only [hj, if_false, ite_false]
        by_cases hcj : (!(get_phone_fingerprint (trimItem j)).isEmpty &&
            !(e.any fun ex =>
              get_phone_fingerprint ex == get_phone_fingerprint (trimItem j))) = true
        · right; rw [if_pos hcj]
        · left; rw [if_neg hcj]
    have hskip : ∀ e' : List (List Char),
        (e'.any fun ex =>
            get_phone_fingerprint ex == get_phone_fingerprint (trimItem i)) = true →
        mergePhoneItem e' i = e' := by
      intro e' hany'
      rw [mergePhoneItem]
      simp only [hi, if_false, ite_false]
      rw [if_neg]
      simp [hany']
    rcases hcf with hfp | hany
    · have skipfp : ∀ e' : List (List Char), mergePhoneItem e' i = e' := by
        intro e'
        rw [mergePhoneItem]
        simp only [hi, if_false, ite_false]
        rw [if_neg]
        simp [hfp]
      exact skipfp _
    · rcases hshape with hs | hs
      · rw [hs]
        exact hskip e hany
      · rw [hs]
        refine hskip _ ?_
        rw [List.any_append]
        simp [hany]

/-- C5 counterexample: merging a bundle whose bank-account candidate has
separator characters inside its digits twice does NOT equal merging it
once — the stored string does not contain the bare digit string, so the
duplicate check misses it and a second copy is appended. -/
theorem C5_counterexample :
    update_intelligence (update_intelligence emptyIntel (bankOnly [sepAcct]))
        (bankOnly [sepAcct]) ≠
      update_intelligence emptyIntel (bankOnly [sepAcct]) := by
  decide

/-- C5 (amended): merging the same bundle into a session twice yields the
same IntelligenceBundle (all five categories, including order) as merging
it once, provided every `bankAccounts` candidate of the bundle is empty
or a bare digit string; the other four categories need no proviso. -/
theorem C5_merge_idempotent_amended (s b : Intelligence)
    (hb : ∀ i ∈ b.bankAccounts, i = [] ∨ digitOnly i) :
    update_intelligence (update_intelligence s b) b =
      update_intelligence s b := by
  simp only [update_intelligence, Intelligence.mk.injEq]
  refine ⟨?_, ?_, ?_, ?_, ?_⟩
  · exact absorb_foldl_idem mergeBankItem (fun i => i = [] ∨ digitOnly i)
      mergeBankItem_post mergeBankItem_mono b.bankAccounts s.bankAccounts hb
  · exact absorb_foldl_idem mergeGenericItem (fun _ => True)
      (fun e i _ => mergeGenericItem_post e i)
      (fun e i j _ _ h => mergeGenericItem_mono e i j h)
      b.upiIds s.upiIds (fun _ _ => trivial)
  · exact absorb_foldl_idem mergeGenericItem (fun _ => True)
      (fun e i _ => mergeGenericItem_post e i)
      (fun e i j _ _ h => mergeGenericItem_mono e i j h)
      b.phishingLinks s.phishingLinks (fun _ _ => trivial)
  · exact absorb_foldl_idem mergePhoneItem (fun _ => True)
      (fun e i _ => mergePhoneItem_post e i)
      (fun e i j _ _ h => mergePhoneItem_mono e i j h)
      b.phoneNumbers s.phoneNumbers (fun _ _ => trivial)
  · exact absorb_foldl_idem mergeGenericItem (fun _ => True)
      (fun e i _ => mergeGenericItem_post e i)
      (fun e i j _ _ h => mergeGenericItem_mono e i j h)
      b.suspiciousKeywords s.suspiciousKeywords (fun _ _ => trivial)

/-- Witness for the amended C5 theorem at a concrete bundle. -/
theorem C5_witness :
    update_intelligence (update_intelligence emptyIntel c5bundle) c5bundle =
      update_intelligence emptyIntel c5bundle :=
  C5_merge_idempotent_amended emptyIntel c5bundle (by decide)

/-- C4 counterexample: digits first stored as a bank account stay in
`bankAccounts` after the same digits arrive tagged as a phone number — no
re-classification or removal happens. -/
theorem C4_counterexample :
    phoneDigits ∈ (update_intelligence (update_intelligence emptyIntel
        (bankOnly [phoneDigits])) (phoneOnly [phoneDigits])).bankAccounts := by
  decide

/-- C4 (amended): after the phone-tagged merge the digits are present
under `phoneNumbers` but also still present under `bankAccounts`; in
general a merge of a phones-only bundle never touches the
`bankAccounts` category. -/
theorem C4_reclassification_amended :
    ((update_intelligence (update_intelligence emptyIntel
        (bankOnly [phoneDigits])) (phoneOnly [phoneDigits])).phoneNumbers =
          [phoneDigits] ∧
      (update_intelligence (update_intelligence emptyIntel
        (bankOnly [phoneDigits])) (phoneOnly [phoneDigits])).bankAccounts =
          [phoneDigits]) ∧
    ∀ (s : Intelligence) (ps : List (List Char)),
      (update_intelligence s (phoneOnly ps)).bankAccounts = s.bankAccounts := by
  refine ⟨⟨by decide, by decide⟩, ?_⟩
  intro s ps
  simp [update_intelligence, phoneOnly, emptyIntel]

/-- C6: merging the unlabeled sixteen-digit account and then its labeled
form leaves exactly one `bankAccounts` entry, the labeled one; and in
general a stored entry survives the scan whenever the incoming candidate
string is not strictly longer than it. -/
theorem C6_label_preservation :
    (update_intelligence (update_intelligence emptyIntel (bankOnly [acct16]))
        (bankOnly [acctLabeled])).bankAccounts = [acctLabeled] ∧
    ∀ (e : List (List Char)) (item_str item_digits ex : List Char),
      ex ∈ e → item_str.length ≤ ex.length →
      ex ∈ bankInsert item_str item_digits e := by
  refine ⟨by decide, ?_⟩
  intro e item_str item_digits ex
  induction e with
  | nil => intro hex _; simp at hex
  | cons a rest ih =>
    intro hex hle
    unfold bankInsert
    by_cases hs : substrIn item_digits a = true
    · rw [if_pos hs]
      by_cases hlen : a.length < item_str.length
      · rw [if_pos hlen]
        rcases List.mem_cons.mp hex with rfl | h
        · exact absurd hlen (by omega)
        · exact List.mem_cons_of_mem _ h
      · rw [if_neg hlen]
        exact hex
    · rw [if_neg hs]
      rcases List.mem_cons.mp hex with rfl | h
      · exact List.mem_cons_self _ _
      · exact List.mem_cons_of_mem _ (ih h hle)

/-- Witness for the survival half of C6 at a concrete stored entry. -/
theorem C6_witness :
    acctLabeled ∈ bankInsert ("9".data) ("9".data) [acctLabeled] :=
  C6_label_preservation.2 [acctLabeled] "9".data "9".data acctLabeled
    (by decide) (by decide)

/-- C1: the callback trigger fires exactly when the session's scam flag
is set and (the outcome is finished, or the intelligence count reached 3,
or phones or accounts are non-empty, or the message count reached the
fixed threshold 4, which lies in the range 4 to 6). -/
theorem C1_report_readiness :
    ∃ threshold, 4 ≤ threshold ∧ threshold ≤ 6 ∧
      ∀ (scam : Bool) (intel : Intelligence) (total : Nat) (is_finished : Bool),
        reportTriggered scam intel total is_finished = true ↔
          (scam = true ∧ (is_finished = true ∨ 3 ≤ intelligence_count intel ∨
            intel.phoneNumbers ≠ [] ∨ intel.bankAccounts ≠ [] ∨
            threshold ≤ total)) := by
  refine ⟨4, le_refl 4, by omega, ?_⟩
  intro scam intel total isf
  unfold reportTriggered has_critical_intel
  simp only [Bool.and_eq_true, Bool.or_eq_true, decide_eq_true_eq,
    List.length_pos]
  tauto

/-- C2: once a session has reported, a new report attempt is suppressed
while the intelligence count is within the watermark and performed once
it has grown past it; the flag and watermark advance only on a
successful delivery, a failed delivery leaves the session unchanged, and
the next qualifying attempt delivers again. -/
theorem C2_reporting_idempotence (s : SessionState)
    (hrep : s.isFinalResultSent = true) :
    (intelligence_count s.extractedIntelligence ≤ s.lastSentIntelligenceCount →
        ∀ ok, send_final_result s ok = (false, s)) ∧
    (s.lastSentIntelligenceCount < intelligence_count s.extractedIntelligence →
        ∀ ok, (send_final_result s ok).1 = true) ∧
    ((send_final_result s false).2 = s) ∧
    ((send_final_result s true).1 = true →
        (send_final_result s true).2.isFinalResultSent = true ∧
        (send_final_result s true).2.lastSentIntelligenceCount =
          intelligence_count s.extractedIntelligence) ∧
    (s.lastSentIntelligenceCount < intelligence_count s.extractedIntelligence →
        (send_final_result ((send_final_result s false).2) true).1 = true) := by
  unfold send_final_result
  by_cases hcw : intelligence_count s.extractedIntelligence ≤
      s.lastSentIntelligenceCount
  · refine ⟨fun _ ok => ?_, fun hlt => absurd hcw (by omega), ?_, ?_,
      fun hlt => absurd hcw (by omega)⟩
    · simp [hrep, hcw]
    · simp [hrep, hcw]
    · simp [hrep, hcw]
  · have hcw' : ¬ (intelligence_count s.extractedIntelligence ≤
        s.lastSentIntelligenceCount) := hcw
    refine ⟨fun hle => absurd hle hcw', fun _ ok => ?_, ?_, fun _ => ?_, fun _ => ?_⟩
    · cases ok <;> simp [hrep, hcw']
    · simp [hrep, hcw']
    · simp [hrep, hcw']
    · simp [hrep, hcw']

/-- Witness for C2 at an already-reported session whose count (5) has
grown past the watermark (4). -/
theorem C2_witness :
    (send_final_result reportedSession true).1 = true :=
  (C2_reporting_idempotence reportedSession rfl).2.1 (by decide) true

/-- C3 counterexample: with a non-empty server history of length 1 and a
strictly longer client history of length 2, reconciliation keeps the
server history instead of adopting the client's. -/
theorem C3_counterexample :
    reconcileHistory [mA] [mB, mC] = [mA] ∧
    ([mA] : List MessageObj).length < ([mB, mC] : List MessageObj).length ∧
    reconcileHistory [mA] [mB, mC] ≠ [mB, mC] := by
  decide

/-- C3 (amended): reconciliation adopts the client history exactly when
the server history is empty and the client history non-empty; in every
other case (even a strictly longer client history) the server history is
kept; the new inbound message is always appended. -/
theorem C3_reconcile_amended :
    ∀ (server client : List MessageObj) (msg : MessageObj),
      (server = [] → client ≠ [] →
        turnHistory server client msg = client ++ [msg]) ∧
      (server ≠ [] → turnHistory server client msg = server ++ [msg]) ∧
      (client = [] → turnHistory server client msg = server ++ [msg]) := by
  intro server client msg
  unfold turnHistory reconcileHistory
  refine ⟨fun hs hc => ?_, fun hs => ?_, fun hc => ?_⟩
  · subst hs
    cases client with
    | nil => exact absurd rfl hc
    | cons a l => simp [List.isEmpty]
  · cases server with
    | nil => exact absurd rfl hs
    | cons a l => simp [List.isEmpty]
  · subst hc
    simp [List.isEmpty]

/-- Witness for C3 at concrete histories: a non-empty server history is
kept and the new message appended. -/
theorem C3_witness :
    turnHistory [mA] [mB, mC] mD = [mA] ++ [mD] :=
  (C3_reconcile_amended [mA] [mB, mC] mD).2.1 (by decide)

/-- C8 counterexample: the reconciled history (and even the history with
the new message appended) can be strictly shorter than the longer of the
two inputs. -/
theorem C8_counterexample :
    (reconcileHistory [mA] [mB, mC, mD]).length <
      ([mB, mC, mD] : List MessageObj).length ∧
    (turnHistory [mA] [mB, mC, mD] mE).length <
      ([mB, mC, mD] : List MessageObj).length := by
  decide

/-- C8 (amended): the post-turn history is always strictly longer than
the server input, and also strictly longer than the client input when
the server history was empty (the only case in which the client history
is adopted); a fresh session starts with count equal to history length,
and both kinds of turn preserve that equality and never decrease the
count. -/
theorem C8_history_monotone_amended :
    (∀ (server client : List MessageObj) (msg : MessageObj),
        server.length < (turnHistory server client msg).length ∧
        (server = [] → client.length < (turnHistory server client msg).length)) ∧
    (∀ sid, (SessionState.init sid).totalMessagesExchanged =
        (SessionState.init sid).history.length) ∧
    (∀ (s : SessionState) (ch : List MessageObj) (msg : MessageObj)
        (heur : Intelligence) (r : ReasoningOutcome) (t : Int),
        s.totalMessagesExchanged = s.history.length →
        s.totalMessagesExchanged ≤
          (successTurn s ch msg heur r t).1.totalMessagesExchanged ∧
        (successTurn s ch msg heur r t).1.totalMessagesExchanged =
          (successTurn s ch msg heur r t).1.history.length) ∧
    (∀ (s : SessionState) (ch : List MessageObj) (msg : MessageObj)
        (heur : Intelligence) (t : Int),
        s.totalMessagesExchanged = s.history.length →
        s.totalMessagesExchanged ≤
          (fallbackTurn s ch msg heur t).1.totalMessagesExchanged ∧
        (fallbackTurn s ch msg heur t).1.totalMessagesExchanged =
          (fallbackTurn s ch msg heur t).1.history.length) := by
  refine ⟨?_, fun sid => rfl, ?_, ?_⟩
  · intro server client msg
    unfold turnHistory reconcileHistory
    constructor
    · by_cases h : (server.isEmpty && !client.isEmpty) = true
      · rw [if_pos h]
        have hs : server = [] := by
          cases hh : server with
          | nil => rfl
          | cons a l =>
            rw [hh] at h
            simp [List.isEmpty] at h
        subst hs
        simp [List.length_append]
      · rw [if_neg h]
        simp [List.length_append]
    · intro hs
      subst hs
      by_cases h : client.isEmpty = true
      · have hc : client = [] := by
          cases hh : client with
          | nil => rfl
          | cons a l =>
            rw [hh] at h
            simp [List.isEmpty] at h
        subst hc
        simp
      · simp only [List.isEmpty_nil, Bool.true_and]
        have h' : client.isEmpty = false := by
          cases hv : client.isEmpty
          · rfl
          · exact absurd hv h
        rw [h']
        simp [List.length_append]
  · intro s ch msg heur r t hinv
    have htot : (successTurn s ch msg heur r t).1.totalMessagesExchanged =
        (reconcileHistory s.history ch).length + 2 := by
      simp [successTurn, turnHistory, List.length_append]
    constructor
    · rw [htot, hinv]
      unfold reconcileHistory
      by_cases h : (s.history.isEmpty && !ch.isEmpty) = true
      · rw [if_pos h]
        have hs : s.history = [] := by
          cases hh : s.history with
          | nil => rfl
          | cons a l =>
            rw [hh] at h
            simp [List.isEmpty] at h
        rw [hs]
        simp
      · rw [if_neg h]
        omega
    · rw [htot]
      simp [successTurn, turnHistory, List.length_append]
  · intro s ch msg heur t hinv
    have htot : (fallbackTurn s ch msg heur t).1.totalMessagesExchanged =
        (reconcileHistory s.history ch).length + 2 := by
      simp [fallbackTurn, turnHistory, List.length_append]
    constructor
    · rw [htot, hinv]
      unfold reconcileHistory
      by_cases h : (s.history.isEmpty && !ch.isEmpty) = true
      · rw [if_pos h]
        have hs : s.history = [] := by
          cases hh : s.history with
          | nil => rfl
          | cons a l =>
            rw [hh] at h
            simp [List.isEmpty] at h
        rw [hs]
        simp
      · rw [if_neg h]
        omega
    · rw [htot]
      simp [fallbackTurn, turnHistory, List.length_append]

/-- Witness for C8 at a concrete turn: the count of the rotation session
does not decrease across a fallback turn. -/
theorem C8_witness :
    rotSession.totalMessagesExchanged ≤
      (fallbackTurn rotSession [] rotMsg1 emptyIntel 1).1.totalMessagesExchanged :=
  ((C8_history_monotone_amended.2.2.2 rotSession [] rotMsg1 emptyIntel 1)
    (by decide)).1

/-- The five rotating fallback replies at indices two apart (mod 5) are
always distinct. -/
theorem responses_rotation_ne (n : Nat) :
    failoverResponses.getD (n % 5) [] ≠
      failoverResponses.getD ((n + 2) % 5) [] := by
  have h5 : n % 5 < 5 := Nat.mod_lt _ (by omega)
  have h2 : (n + 2) % 5 = (n % 5 + 2) % 5 := by omega
  rw [h2]
  generalize n % 5 = k at h5 ⊢
  interval_cases k <;> decide

/-- C9 counterexample: two consecutive fallback turns both answered by
the fixed small-talk override produce the identical canned reply. -/
theorem C9_counterexample :
    smallTalkTurn1.2 = smallTalkTurn2.2 ∧ smallTalkTurn1.2 = howAreYouReply := by
  constructor <;> decide

/-- C9 (amended): on two consecutive fallback turns on which neither the
small-talk override nor the non-fraud override fires, and whose session
count equals its history length with a non-empty server history, the
rotating canned replies differ (the rotation index advances by 2 mod 5);
the fixed override replies, by contrast, can repeat. -/
theorem C9_no_repeat_amended (s : SessionState) (ch ch' : List MessageObj)
    (msg msg' : MessageObj) (heur heur' : Intelligence) (t t' : Int)
    (hinv : s.totalMessagesExchanged = s.history.length)
    (hne : s.history ≠ [])
    (hst1 : fallbackSmallTalk s ch msg = false)
    (hfr1 : fallbackIsFraud s ch msg = true)
    (hst2 : fallbackSmallTalk (fallbackTurn s ch msg heur t).1 ch' msg' = false)
    (hfr2 : fallbackIsFraud (fallbackTurn s ch msg heur t).1 ch' msg' = true) :
    (fallbackTurn s ch msg heur t).2 ≠
      (fallbackTurn (fallbackTurn s ch msg heur t).1 ch' msg' heur' t').2 := by
  have e2 : (fallbackTurn s ch msg heur t).1.totalMessagesExchanged =
      s.totalMessagesExchanged + 2 := by
    have hre : reconcileHistory s.history ch = s.history := by
      unfold reconcileHistory
      cases hh : s.history with
      | nil => exact absurd hh hne
      | cons a l => simp [List.isEmpty]
    simp [fallbackTurn, turnHistory, hre, List.length_append, hinv]
  have e1 : (fallbackTurn s ch msg heur t).2 =
      failoverResponses.getD (s.totalMessagesExchanged % 5) [] := by
    simp [fallbackTurn, hst1, hfr1]
  have e3 : (fallbackTurn (fallbackTurn s ch msg heur t).1 ch' msg' heur' t').2 =
      failoverResponses.getD ((s.totalMessagesExchanged + 2) % 5) [] := by
    rw [show (fallbackTurn (fallbackTurn s ch msg heur t).1 ch' msg' heur' t').2 =
        (if fallbackSmallTalk (fallbackTurn s ch msg heur t).1 ch' msg' then
          howAreYouReply
         else if fallbackIsFraud (fallbackTurn s ch msg heur t).1 ch' msg' = false
           then wrongNumberReply
         else failoverResponses.getD
           ((fallbackTurn s ch msg heur t).1.totalMessagesExchanged % 5) [])
      from rfl]
    rw [e2]
    simp [hst2, hfr2]
  rw [e1, e3]
  exact responses_rotation_ne s.totalMessagesExchanged

/-- Witness for C9 at concrete consecutive fallback turns without
overrides: the replies differ. -/
theorem C9_witness :
    rotTurn1.2 ≠ (fallbackTurn rotTurn1.1 [] rotMsg2 emptyIntel 2).2 :=
  C9_no_repeat_amended rotSession [] [] rotMsg1 rotMsg2 emptyIntel emptyIntel 1 2
    (by decide) (by decide) (by decide) (by decide) (by decide) (by decide)

/-- C10: on a successful provider turn the scam flag becomes the
provider's verdict forced to true when the raw transcript contains one
of the five lowercase keywords; at a concrete benign transcript a
previously true flag reverts to false on a false verdict. -/
theorem C10_scam_flag :
    (∀ (s : SessionState) (ch : List MessageObj) (msg : MessageObj)
        (heur : Intelligence) (r : ReasoningOutcome) (t : Int) (v : Bool),
        r.scamDetected = some v →
        (successTurn s ch msg heur r t).1.scamDetected =
          (v || scamKeywords.any fun k =>
            substrIn k (combinedInput (turnHistory s.history ch msg) msg))) ∧
    ((successTurn sRevert [] benignMsg emptyIntel verdictFalse 0).1.scamDetected
        = false ∧
      sRevert.scamDetected = true) := by
  constructor
  · intro s ch msg heur r t v hv
    by_cases hk : (scamKeywords.any fun k =>
        substrIn k (combinedInput (turnHistory s.history ch msg) msg)) = true
    · simp [successTurn, hv, hk]
    · have hk' : (scamKeywords.any fun k =>
          substrIn k (combinedInput (turnHistory s.history ch msg) msg)) = false := by
        cases hvv : scamKeywords.any fun k =>
            substrIn k (combinedInput (turnHistory s.history ch msg) msg)
        · rfl
        · exact absurd hvv hk
      simp [successTurn, hv, hk']
  · exact ⟨by decide, rfl⟩

/-- Witness for C10 at the concrete revert scenario. -/
theorem C10_witness :
    (successTurn sRevert [] benignMsg emptyIntel verdictFalse 0).1.scamDetected =
      (false || scamKeywords.any fun k =>
        substrIn k (combinedInput (turnHistory sRevert.history [] benignMsg)
          benignMsg)) :=
  C10_scam_flag.1 sRevert [] benignMsg emptyIntel verdictFalse 0 false rfl

/-- C7: every turn outcome carries status `success`, and each of the
three failure modes — provider invocation error, missing JSON object in
the raw content, undecodable JSON object — yields the offline persona
reply rather than an error response. -/
theorem C7_no_error_surfaced :
    ∀ (s : SessionState) (ch : List MessageObj) (msg : MessageObj)
      (heur : Intelligence) (inv : Except (List Char) (List Char))
      (parse : List Char → Option ReasoningOutcome) (t : Int),
      (runTurn s ch msg heur inv parse t).2.status = successStr ∧
      (∀ e, inv = Except.error e →
        (runTurn s ch msg heur inv parse t).2.reply =
          (fallbackTurn s ch msg heur t).2) ∧
      (∀ c, inv = Except.ok c → extractJson c = none →
        (runTurn s ch msg heur inv parse t).2.reply =
          (fallbackTurn s ch msg heur t).2) ∧
      (∀ c js, inv = Except.ok c → extractJson c = some js → parse js = none →
        (runTurn s ch msg heur inv parse t).2.reply =
          (fallbackTurn s ch msg heur t).2) := by
  intro s ch msg heur inv parse t
  refine ⟨?_, ?_, ?_, ?_⟩
  · cases inv with
    | error e => rfl
    | ok c =>
      cases hej : extractJson c with
      | none => simp [runTurn, hej]
      | some js =>
        cases hp : parse js with
        | none => simp [runTurn, hej, hp]
        | some r => simp [runTurn, hej, hp]
  · rintro e rfl
    rfl
  · rintro c rfl hej
    simp [runTurn, hej]
  · rintro c js rfl hej hp
    simp [runTurn, hej, hp]

/-- Witness for C7 at a concrete failed invocation. -/
theorem C7_witness :
    (runTurn (SessionState.init "c7".data) [] benignMsg emptyIntel
        (Except.error "boom".data) (fun _ => none) 0).2.status = successStr ∧
    (runTurn (SessionState.init "c7".data) [] benignMsg emptyIntel
        (Except.error "boom".data) (fun _ => none) 0).2.reply =
      (fallbackTurn (SessionState.init "c7".data) [] benignMsg emptyIntel 0).2 :=
  ⟨(C7_no_error_surfaced (SessionState.init "c7".data) [] benignMsg emptyIntel
      (Except.error "boom".data) (fun _ => none) 0).1,
   (C7_no_error_surfaced (SessionState.init "c7".data) [] benignMsg emptyIntel
      (Except.error "boom".data) (fun _ => none) 0).2.1 "boom".data rfl⟩
